import Mathlib

/-!
Verification of the mahjong new-year lottery promotion app (src/index.jsx).

The development shallowly embeds the decision logic of the source file:
the fixed prize table `PRIZES`, the weighted selection loop and inventory
check of `determinePrize`, the serial generator `generateSerial`, the
registration flow of `handleSubmit`, the admin list query `fetchAdminData`,
the bulk wipe `clearAllData`, and the scratch-reveal state machine of the
`ScratchCard` component.  JavaScript numbers are modelled as exact
rationals (`ℚ`), Firestore documents as Lean structures, the fallible
asynchronous reads as explicit outcome values.
-/

namespace Mahjong

/-- A row of the `PRIZES` table: `{ id, name, type, prob, limit }`.
`limit = -1` is the UNLIMITED sentinel used by the source. -/
structure Prize where
  id : String
  name : String
  type : String
  prob : ℚ
  limit : Int
deriving DecidableEq

/-- Row `{ id: 'none_1', name: '銘謝惠顧', type: 'none', prob: 0.38, limit: -1 }`. -/
def pNone1 : Prize := ⟨"none_1", "銘謝惠顧", "none", 0.38, -1⟩

/-- Row `{ id: 'none_2', name: '下次再加油', type: 'none', prob: 0.38, limit: -1 }`. -/
def pNone2 : Prize := ⟨"none_2", "下次再加油", "none", 0.38, -1⟩

/-- Row `{ id: 'ext_1h', name: '1小時續時券', type: 'win', prob: 0.10, limit: -1 }`. -/
def pExt1h : Prize := ⟨"ext_1h", "1小時續時券", "win", 0.10, -1⟩

/-- Row `{ id: 'disc_50', name: '50元折價券', type: 'win', prob: 0.10, limit: -1 }`. -/
def pDisc50 : Prize := ⟨"disc_50", "50元折價券", "win", 0.10, -1⟩

/-- Row `{ id: 'ext_2h', name: '2小時續時券', type: 'win', prob: 0.034, limit: 30 }`. -/
def pExt2h : Prize := ⟨"ext_2h", "2小時續時券", "win", 0.034, 30⟩

/-- Row `{ id: 'free_2h', name: '2小時免費包廂卷', type: 'win', prob: 0.005, limit: 15 }`. -/
def pFree2h : Prize := ⟨"free_2h", "2小時免費包廂卷", "win", 0.005, 15⟩

/-- Row `{ id: 'free_4h', name: '4小時免費包廂卷', type: 'win', prob: 0.001, limit: 5 }`. -/
def pFree4h : Prize := ⟨"free_4h", "4小時免費包廂卷", "win", 0.001, 5⟩

/-- The `PRIZES` constant, in the source's canonical (insertion) order. -/
def PRIZES : List Prize := [pNone1, pNone2, pExt1h, pDisc50, pExt2h, pFree2h, pFree4h]

/-- The selection loop of `determinePrize`:
`for (const p of PRIZES) { cumulative += p.prob; if (rand <= cumulative) { selectedPrize = p; break; } }`.
Arguments mirror the loop state: remaining rows, `cumulative`, current `selectedPrize`. -/
def selectLoop (r : ℚ) : List Prize → ℚ → Prize → Prize
  | [], _, selected => selected
  | p :: ps, cum, selected =>
      if r ≤ cum + p.prob then p else selectLoop r ps (cum + p.prob) selected

/-- The pure weighted selection of `determinePrize`:
`cumulative = 0`, `selectedPrize = PRIZES[0]`, then the loop. -/
def selectPrize (r : ℚ) : Prize := selectLoop r PRIZES 0 pNone1

/-- Cumulative probability of the first `i+1` rows of `PRIZES`. -/
def cumProb (i : Nat) : ℚ := ((PRIZES.take (i + 1)).map Prize.prob).sum

/-- Field access `statsSnap.data()[selectedPrize.id] || 0` on the
`prize_counts` document, modelled as an association list of fields. -/
def lookupCount (dta : List (String × Nat)) (id : String) : Nat :=
  (((dta.find? (fun kv => kv.1 == id)).map (fun kv => kv.2)).getD 0)

/-- Outcome of the `prize_counts` read inside `determinePrize`:
the Firestore helpers may not be loaded yet (`!doc || !getDoc || !db`),
`getDoc` may throw (the `catch` branch), the document may not exist
(`statsSnap.exists()` false), or it exists with field data. -/
inductive StatsRead
  | notLoaded
  | err
  | missing
  | ok (dta : List (String × Nat))
deriving DecidableEq

/-- The inventory-limit phase of `determinePrize`: skipped for unlimited
prizes (`limit !== -1` guard); on the not-loaded guard returns the selected
prize; on a thrown read returns `PRIZES[0]`; otherwise compares the stored
count (`0` when the document is missing) against the limit and substitutes
`PRIZES.find(p => p.id === 'disc_50') || PRIZES[0]` when the count reached
the limit.  No count is ever written (the increment is skipped in the source). -/
def checkLimit (selectedPrize : Prize) (stats : StatsRead) : Prize :=
  if selectedPrize.limit = -1 then selectedPrize else
  match stats with
  | StatsRead.notLoaded => selectedPrize
  | StatsRead.err => pNone1
  | StatsRead.missing =>
      if ((0 : Int) ≥ selectedPrize.limit) then
        (PRIZES.find? (fun p => p.id == "disc_50")).getD pNone1
      else selectedPrize
  | StatsRead.ok dta =>
      if ((lookupCount dta selectedPrize.id : Int) ≥ selectedPrize.limit) then
        (PRIZES.find? (fun p => p.id == "disc_50")).getD pNone1
      else selectedPrize

/-- The whole of `determinePrize`: weighted selection on the random draw
`r = Math.random()`, then the inventory-limit check. -/
def determinePrize (r : ℚ) (stats : StatsRead) : Prize :=
  checkLimit (selectPrize r) stats

/-- The phone validation `/^09\d{8}$/.test(formData.phone)`:
the characters are `0`, `9`, then exactly eight decimal digits. -/
def validPhone (s : String) : Bool :=
  match s.data with
  | '0' :: '9' :: rest => rest.length == 8 && rest.all Char.isDigit
  | _ => false

/-- Little-endian base-10 digits with explicit fuel (each step divides by 10,
so fuel `n` suffices for input `n`); kernel-reducible companion to `Nat.digits`. -/
def natDigitsFuel : Nat → Nat → List Nat
  | 0, _ => []
  | _ + 1, 0 => []
  | fuel + 1, n + 1 => ((n + 1) % 10) :: natDigitsFuel fuel ((n + 1) / 10)

/-- JavaScript `Number.prototype.toString()` on a non-negative integer:
its decimal digit string (and `"0"` for zero). -/
def decimalString (n : Nat) : String :=
  if n = 0 then "0" else String.mk (((natDigitsFuel n n).reverse).map Nat.digitChar)

/-- `generateSerial`: `Math.floor(100000 + Math.random() * 900000).toString()`,
with the `Math.random()` draw as explicit argument. -/
def generateSerial (r : ℚ) : String :=
  decimalString (Nat.floor ((100000 : ℚ) + r * 900000))

/-- The regex `^\d{6}$` from the spec's serial property: exactly six
decimal-digit characters. -/
def matchesSixDigits (s : String) : Bool :=
  s.data.length == 6 && s.data.all Char.isDigit

/-- An order document as `handleSubmit`'s `addDoc` creates it (plus the
store-assigned `id` and the admin-mutable `note` that `updateNote` may add
later; a field the document may lack is an `Option`). `timestamp` is the
server timestamp's `seconds` value, absent until the server assigns it. -/
structure Order where
  id : String
  phone : String
  date : String
  branch : String
  room : String
  duration : Nat
  userId : String
  isGrandEligible : Bool
  grandDrawSerial : Option String
  scratchPrizeId : String
  scratchPrizeName : String
  scratchPrizeType : String
  prizeSent : Bool
  note : Option String
  timestamp : Option Nat
deriving DecidableEq

/-- The registration form's fields. -/
structure RegForm where
  phone : String
  date : String
  branch : String
  room : String
  duration : Nat
deriving DecidableEq

/-- The user-facing failures `handleSubmit` raises before any write. -/
inductive RegError
  | invalidInput
  | duplicateEntry
deriving DecidableEq

/-- The persistent store: the `orders` collection and the optional
`stats/prize_counts` document. -/
structure Store where
  orders : List Order
  stats : Option (List (String × Nat))
deriving DecidableEq

/-- Environment of the `prize_counts` read: the read succeeds, the `getDoc`
call throws, or the Firestore helpers are not loaded yet. -/
inductive StoreEnv
  | success
  | fail
  | notLoaded
deriving DecidableEq

/-- The `StatsRead` outcome `determinePrize` sees, given the environment and
the store's actual `prize_counts` document. -/
def readStats : StoreEnv → Store → StatsRead
  | StoreEnv.notLoaded, _ => StatsRead.notLoaded
  | StoreEnv.fail, _ => StatsRead.err
  | StoreEnv.success, s =>
      match s.stats with
      | none => StatsRead.missing
      | some dta => StatsRead.ok dta

/-- The registration logic of `handleSubmit`: phone validation, the
duplicate query on `phone == ∧ date ==`, grand-draw eligibility
`parseInt(duration) >= 4` with `generateSerial`, `determinePrize`, then the
`addDoc` payload (form fields, `userId`, eligibility, serial, prize
snapshot, `prizeSent: false`, server timestamp; no `note` field).  The two
random draws, the server timestamp, the new document id and the read
environment are explicit arguments. -/
def handleSubmit (form : RegForm) (uid : String) (r sr : ℚ) (ts : Nat)
    (newId : String) (env : StoreEnv) (s : Store) : Except RegError Order × Store :=
  if validPhone form.phone = false then (Except.error RegError.invalidInput, s)
  else if s.orders.any (fun o => o.phone == form.phone && o.date == form.date) then
    (Except.error RegError.duplicateEntry, s)
  else
    let isGrandEligible := decide (4 ≤ form.duration)
    let serial := if isGrandEligible then some (generateSerial sr) else none
    let prize := determinePrize r (readStats env s)
    let newOrder : Order :=
      { id := newId, phone := form.phone, date := form.date, branch := form.branch,
        room := form.room, duration := form.duration, userId := uid,
        isGrandEligible := isGrandEligible, grandDrawSerial := serial,
        scratchPrizeId := prize.id, scratchPrizeName := prize.name,
        scratchPrizeType := prize.type, prizeSent := false, note := none,
        timestamp := some ts }
    (Except.ok newOrder, { s with orders := s.orders ++ [newOrder] })

/-- One registration request with its nondeterministic inputs. -/
structure RegRequest where
  form : RegForm
  uid : String
  r : ℚ
  sr : ℚ
  ts : Nat
  newId : String
  env : StoreEnv

/-- A sequence of registrations applied to the store. -/
def registerAll (reqs : List RegRequest) (s : Store) : Store :=
  reqs.foldl (fun st q => (handleSubmit q.form q.uid q.r q.sr q.ts q.newId q.env st).2) s

/-- The in-memory sort key `a.timestamp?.seconds || 0`, compared descending
(`timeB - timeA`): `a` comes before `b` when `b`'s time is at most `a`'s. -/
def newerFirst (a b : Order) : Prop :=
  (b.timestamp.getD 0) ≤ (a.timestamp.getD 0)

instance : DecidableRel newerFirst := fun a b =>
  inferInstanceAs (Decidable ((b.timestamp.getD 0) ≤ (a.timestamp.getD 0)))

instance : IsTotal Order newerFirst :=
  ⟨fun a b => (Nat.le_total (b.timestamp.getD 0) (a.timestamp.getD 0)).imp id id⟩

instance : IsTrans Order newerFirst :=
  ⟨fun _ _ _ hab hbc => le_trans hbc hab⟩

/-- `fetchAdminData`: load all orders, filter by tab (`grand` keeps
`isGrandEligible === true`, any other tab keeps `scratchPrizeType === 'win'`),
then sort by timestamp descending. -/
def fetchAdminData (tab : String) (orders : List Order) : List Order :=
  (if tab == "grand" then orders.filter (fun o => o.isGrandEligible)
   else orders.filter (fun o => o.scratchPrizeType == "win")).insertionSort newerFirst

/-- `deleteDoc(doc(db, …, 'orders', docId))`: remove the order document with
that id. -/
def deleteOrder (s : Store) (docId : String) : Store :=
  { s with orders := s.orders.filter (fun o => !(o.id == docId)) }

/-- `clearAllData`: snapshot the `orders` collection and delete each of its
documents.  (Nothing else is touched.) -/
def clearAllData (s : Store) : Store :=
  (s.orders.map Order.id).foldl deleteOrder s

/-- State of the `ScratchCard` overlay: the alpha value of each canvas
sample (`imageData` has one alpha byte per sample) and the `isRevealed`
flag. -/
structure ScratchState where
  grid : List Nat
  revealed : Bool
deriving DecidableEq

/-- The count of samples with `pixels[i+3] < 128` in `checkReveal`. -/
def countTransparent (g : List Nat) : Nat :=
  (g.filter (fun a => a < 128)).length

/-- `percent = (transparent / (pixels.length / 4)) * 100` in `checkReveal`. -/
def percentCleared (g : List Nat) : ℚ :=
  (countTransparent g : ℚ) / (g.length : ℚ) * 100

/-- `checkReveal`: when the cleared percentage exceeds 75, set `isRevealed`
(the fade-out and the `onComplete` timer are presentation). -/
def checkReveal (s : ScratchState) : ScratchState :=
  if 75 < percentCleared s.grid then { s with revealed := true } else s

/-- One `destination-out` scratch: the samples inside the eraser circle
(abstracted as an index predicate) get alpha 0. -/
def applyClear (op : Nat → Bool) (g : List Nat) : List Nat :=
  g.mapIdx (fun i a => if op i then 0 else a)

/-- The overlay's input events: a drag movement (`draw`, with the cleared
index set of its eraser circle) and a pointer release (`endDraw`). -/
inductive ScratchOp
  | draw (cleared : Nat → Bool)
  | release

/-- One event of the `ScratchCard` machine: `draw` returns early when
`isRevealedRef.current`, else scratches and runs `checkReveal`; `endDraw`
runs `checkReveal` alone. -/
def scratchStep : ScratchOp → ScratchState → ScratchState
  | ScratchOp.release, s => checkReveal s
  | ScratchOp.draw op, s =>
      if s.revealed then s
      else checkReveal { s with grid := applyClear op s.grid }

/-- The freshly painted overlay: every sample fully opaque (alpha 255),
not revealed. -/
def initialScratch (n : Nat) : ScratchState :=
  { grid := List.replicate n 255, revealed := false }

/-- A run of the scratch machine over a list of events. -/
def runScratch (ops : List ScratchOp) (s : ScratchState) : ScratchState :=
  ops.foldl (fun st op => scratchStep op st) s

/-- All states a run passes through, initial state included. -/
def scratchTrace (ops : List ScratchOp) (s : ScratchState) : List ScratchState :=
  ops.scanl (fun st op => scratchStep op st) s

/-- The number of `false → true` steps in a Boolean trace: how many times
the machine transitioned from Active to Revealed. -/
def countRises : List Bool → Nat
  | [] => 0
  | [_] => 0
  | a :: b :: rest => (if a = false ∧ b = true then 1 else 0) + countRises (b :: rest)

/-! ## Selection-loop facts (claim C1) -/

/-- The selection loop on the concrete table, written as nested conditionals
over the exact cumulative sums. -/
lemma selectPrize_eq (r : ℚ) :
    selectPrize r =
      if r ≤ 0.38 then pNone1
      else if r ≤ 0.76 then pNone2
      else if r ≤ 0.86 then pExt1h
      else if r ≤ 0.96 then pDisc50
      else if r ≤ 0.994 then pExt2h
      else if r ≤ 0.999 then pFree2h
      else if r ≤ 1 then pFree4h
      else pNone1 := by
  norm_num [selectPrize, selectLoop, PRIZES, pNone1, pNone2, pExt1h, pDisc50, pExt2h, pFree2h,
    pFree4h]

/-- The seven cumulative sums of the table. -/
lemma cumProb_vals :
    cumProb 0 = 0.38 ∧ cumProb 1 = 0.76 ∧ cumProb 2 = 0.86 ∧ cumProb 3 = 0.96 ∧
      cumProb 4 = 0.994 ∧ cumProb 5 = 0.999 ∧ cumProb 6 = 1 := by
  norm_num [cumProb, PRIZES, pNone1, pNone2, pExt1h, pDisc50, pExt2h, pFree2h, pFree4h]

/-- Claim C1 (amended): for every `r` in `[0,1)` the selection loop returns
the first `PrizeDefinition` in canonical order whose cumulative sum is `≥ r`
— the definition whose left-open right-closed cumulative interval contains
`r` — so a boundary `r` equal to a cumulative sum selects the definition
whose interval ends at that sum, not the next one; the result is always one
of the table's rows and never an error. -/
theorem c1_selection_interval (r : ℚ) (h0 : 0 ≤ r) (h1 : r < 1) :
    ∃ i : Fin PRIZES.length, selectPrize r = PRIZES.get i ∧ r ≤ cumProb i.val ∧
      ∀ j, j < i.val → cumProb j < r := by
  obtain ⟨c0, c1, c2, c3, c4, c5, c6⟩ := cumProb_vals
  rw [selectPrize_eq]
  split_ifs with hc1 hc2 hc3 hc4 hc5 hc6 hc7
  · exact ⟨⟨0, by norm_num [PRIZES]⟩, rfl, by rw [c0]; exact hc1,
      fun j hj => absurd hj (Nat.not_lt_zero j)⟩
  · refine ⟨⟨1, by norm_num [PRIZES]⟩, rfl, by rw [c1]; exact hc2, ?_⟩
    intro j hj
    interval_cases j
    · rw [c0]; linarith [not_le.mp hc1]
  · refine ⟨⟨2, by norm_num [PRIZES]⟩, rfl, by rw [c2]; exact hc3, ?_⟩
    intro j hj
    interval_cases j
    · rw [c0]; linarith [not_le.mp hc2]
    · rw [c1]; linarith [not_le.mp hc2]
  · refine ⟨⟨3, by norm_num [PRIZES]⟩, rfl, by rw [c3]; exact hc4, ?_⟩
    intro j hj
    interval_cases j
    · rw [c0]; linarith [not_le.mp hc3]
    · rw [c1]; linarith [not_le.mp hc3]
    · rw [c2]; linarith [not_le.mp hc3]
  · refine ⟨⟨4, by norm_num [PRIZES]⟩, rfl, by rw [c4]; exact hc5, ?_⟩
    intro j hj
    interval_cases j
    · rw [c0]; linarith [not_le.mp hc4]
    · rw [c1]; linarith [not_le.mp hc4]
    · rw [c2]; linarith [not_le.mp hc4]
    · rw [c3]; linarith [not_le.mp hc4]
  · refine ⟨⟨5, by norm_num [PRIZES]⟩, rfl, by rw [c5]; exact hc6, ?_⟩
    intro j hj
    interval_cases j
    · rw [c0]; linarith [not_le.mp hc5]
    · rw [c1]; linarith [not_le.mp hc5]
    · rw [c2]; linarith [not_le.mp hc5]
    · rw [c3]; linarith [not_le.mp hc5]
    · rw [c4]; linarith [not_le.mp hc5]
  · refine ⟨⟨6, by norm_num [PRIZES]⟩, rfl, by rw [c6]; exact hc7, ?_⟩
    intro j hj
    interval_cases j
    · rw [c0]; linarith [not_le.mp hc6]
    · rw [c1]; linarith [not_le.mp hc6]
    · rw [c2]; linarith [not_le.mp hc6]
    · rw [c3]; linarith [not_le.mp hc6]
    · rw [c4]; linarith [not_le.mp hc6]
    · rw [c5]; linarith [not_le.mp hc6]
  · exact absurd h1 (by linarith [not_le.mp hc7])

/-- Claim C1 witness: the amended selection property instantiated at the
concrete draw `r = 1/2`. -/
theorem c1_selection_interval_witness :
    (0 : ℚ) ≤ 1 / 2 ∧ (1 / 2 : ℚ) < 1 ∧
      ∃ i : Fin PRIZES.length, selectPrize (1 / 2) = PRIZES.get i ∧
        (1 / 2 : ℚ) ≤ cumProb i.val ∧ ∀ j, j < i.val → cumProb j < (1 / 2 : ℚ) :=
  ⟨by norm_num, by norm_num, c1_selection_interval (1 / 2) (by norm_num) (by norm_num)⟩

/-- Claim C1 counterexample: `r = 0.38` is exactly the first cumulative sum,
the boundary between `none_1`'s and `none_2`'s intervals.  The claim says the
next definition in canonical order (`none_2`, whose half-open interval
`[0.38, 0.76)` contains `r`) is selected; the loop's `rand <= cumulative`
test selects `none_1`, the previous one. -/
theorem c1_boundary_counterexample :
    cumProb 0 = 0.38 ∧ selectPrize 0.38 = pNone1 ∧
      PRIZES.get ⟨0, by norm_num [PRIZES]⟩ = pNone1 ∧
      PRIZES.get ⟨1, by norm_num [PRIZES]⟩ = pNone2 ∧ pNone1 ≠ pNone2 := by
  refine ⟨cumProb_vals.1, ?_, rfl, rfl, ?_⟩
  · rw [selectPrize_eq]; norm_num
  · intro h
    exact absurd (congrArg Prize.id h) (by simp [pNone1, pNone2])

/-! ## Inventory-limit facts (claims C2, C3) -/

/-- The fallback expression `PRIZES.find(p => p.id === 'disc_50') || PRIZES[0]`
evaluates to the `disc_50` row. -/
lemma fallback_eq : (PRIZES.find? (fun p => p.id == "disc_50")).getD pNone1 = pDisc50 := rfl

/-- Claim C2: when the selected prize has a finite limit and the stored
count for its id has reached that limit, `determinePrize` returns the
`disc_50` fallback (the `find disc_50 || PRIZES[0]` expression), never the
exhausted prize itself; when the count is below the limit, the selected
prize stands. -/
theorem c2_inventory_fallback (r : ℚ) (dta : List (String × Nat))
    (hl : (selectPrize r).limit ≠ -1) :
    (((lookupCount dta (selectPrize r).id : Int) ≥ (selectPrize r).limit) →
      determinePrize r (StatsRead.ok dta) =
          (PRIZES.find? (fun p => p.id == "disc_50")).getD pNone1 ∧
        determinePrize r (StatsRead.ok dta) = pDisc50 ∧
        determinePrize r (StatsRead.ok dta) ≠ selectPrize r) ∧
    (((lookupCount dta (selectPrize r).id : Int) < (selectPrize r).limit) →
      determinePrize r (StatsRead.ok dta) = selectPrize r) := by
  constructor
  · intro hge
    have heq : determinePrize r (StatsRead.ok dta) = pDisc50 := by
      simp [determinePrize, checkLimit, hl, hge, fallback_eq]
    refine ⟨by rw [heq, fallback_eq], heq, ?_⟩
    rw [heq]
    intro h
    have : (selectPrize r).limit = -1 := by rw [← h]; rfl
    exact hl this
  · intro hlt
    simp [determinePrize, checkLimit, hl, not_le.mpr hlt]

/-- Claim C2 witness: the draw `r = 0.97` selects `ext_2h` (limit 30); with
its stored count at 30 the award is downgraded to `disc_50`. -/
theorem c2_inventory_fallback_witness :
    determinePrize 0.97 (StatsRead.ok [("ext_2h", 30)]) = pDisc50 ∧
      determinePrize 0.97 (StatsRead.ok [("ext_2h", 30)]) ≠ selectPrize 0.97 := by
  have h := (c2_inventory_fallback 0.97 [("ext_2h", 30)]
      (by rw [selectPrize_eq]; norm_num [pExt2h])).1
    (by rw [selectPrize_eq]; norm_num [pExt2h, lookupCount])
  exact ⟨h.2.1, h.2.2⟩

/-- Claim C3 (amended): when the `prize_counts` read throws, `determinePrize`
swallows the error but returns the first table row `none_1`, not the
originally selected prize; when the Firestore helpers are simply not loaded
it does return the originally selected prize; in either case the overall
registration still succeeds (shown for the thrown-read environment). -/
theorem c3_read_error_fallback (r : ℚ) (hl : (selectPrize r).limit ≠ -1) :
    (determinePrize r StatsRead.err = pNone1 ∧
      determinePrize r StatsRead.notLoaded = selectPrize r) ∧
    ∀ (form : RegForm) (uid : String) (sr : ℚ) (ts : Nat) (newId : String) (s : Store),
      validPhone form.phone = true →
      (s.orders.any (fun o => o.phone == form.phone && o.date == form.date)) = false →
      ∃ o : Order, handleSubmit form uid r sr ts newId StoreEnv.fail s =
        (Except.ok o, { s with orders := s.orders ++ [o] }) := by
  constructor
  · exact ⟨by simp [determinePrize, checkLimit, hl], by simp [determinePrize, checkLimit, hl]⟩
  · intro form uid sr ts newId s hv hdup
    unfold handleSubmit
    rw [if_neg (by simp [hv]), if_neg (by simp [hdup])]
    exact ⟨_, rfl⟩

/-- Claim C3 witness: the thrown-read fallback and the surviving
registration, at the concrete draw `r = 0.97` (which selects the limited
prize `ext_2h`) and an empty store. -/
theorem c3_read_error_fallback_witness :
    (determinePrize 0.97 StatsRead.err = pNone1 ∧
      determinePrize 0.97 StatsRead.notLoaded = selectPrize 0.97) ∧
    ∃ o : Order, handleSubmit ⟨"0912345678", "2025-02-01", "大林店", "南", 4⟩ "u" 0.97 0 5
        "doc1" StoreEnv.fail ⟨[], none⟩ =
      (Except.ok o, { orders := [] ++ [o], stats := none }) := by
  have h := c3_read_error_fallback 0.97 (by rw [selectPrize_eq]; norm_num [pExt2h])
  exact ⟨h.1, h.2 ⟨"0912345678", "2025-02-01", "大林店", "南", 4⟩ "u" 0 5 "doc1" ⟨[], none⟩
    (by decide) (by decide)⟩

/-- Claim C3 counterexample: at `r = 0.97` the selection is the limited
prize `ext_2h`; when the count read throws, `determinePrize` returns
`none_1` — a downgrade — rather than the originally selected `ext_2h` the
claim promises. -/
theorem c3_read_error_counterexample :
    selectPrize 0.97 = pExt2h ∧ pExt2h.limit ≠ -1 ∧
      determinePrize 0.97 StatsRead.err = pNone1 ∧ pNone1 ≠ pExt2h := by
  have hs : selectPrize 0.97 = pExt2h := by rw [selectPrize_eq]; norm_num
  refine ⟨hs, by norm_num [pExt2h], ?_, ?_⟩
  · simp [determinePrize, checkLimit, hs, pExt2h]
  · intro h
    exact absurd (congrArg Prize.id h) (by simp [pNone1, pExt2h])

/-! ## Registration guards (claim C4) -/

/-- Claim C4: a phone failing `^09\d{8}$` makes registration fail with
`InvalidInput` and leaves the store untouched; an existing order matching
both phone and date exactly makes it fail with `DuplicateEntry` and leaves
the store untouched; when the phone is valid and no existing order matches
on both fields (in particular when every same-phone order has a different
date), registration passes the checks and creates exactly one new order. -/
theorem c4_validation_duplicate (form : RegForm) (uid : String) (r sr : ℚ) (ts : Nat)
    (newId : String) (env : StoreEnv) (s : Store) :
    (validPhone form.phone = false →
      handleSubmit form uid r sr ts newId env s = (Except.error RegError.invalidInput, s)) ∧
    (validPhone form.phone = true →
      (∃ o ∈ s.orders, o.phone = form.phone ∧ o.date = form.date) →
      handleSubmit form uid r sr ts newId env s = (Except.error RegError.duplicateEntry, s)) ∧
    (validPhone form.phone = true →
      (∀ o ∈ s.orders, o.phone = form.phone → o.date ≠ form.date) →
      ∃ o : Order, handleSubmit form uid r sr ts newId env s =
        (Except.ok o, { s with orders := s.orders ++ [o] })) := by
  refine ⟨?_, ?_, ?_⟩
  · intro hv
    unfold handleSubmit
    rw [if_pos hv]
  · intro hv hex
    have hdup : s.orders.any (fun o => o.phone == form.phone && o.date == form.date) = true := by
      rcases hex with ⟨o, ho, h1, h2⟩
      rw [List.any_eq_true]
      exact ⟨o, ho, by simp [h1, h2]⟩
    unfold handleSubmit
    rw [if_neg (by simp [hv]), if_pos hdup]
  · intro hv hnone
    have hdup : s.orders.any (fun o => o.phone == form.phone && o.date == form.date) = false := by
      rw [List.any_eq_false]
      intro o ho
      simp only [Bool.and_eq_true, beq_iff_eq, not_and]
      exact fun hp => hnone o ho hp
    unfold handleSubmit
    rw [if_neg (by simp [hv]), if_neg (by simp [hdup])]
    exact ⟨_, rfl⟩

/-- Claim C4 witness: a malformed phone is rejected as `InvalidInput`; with
an order for phone `0912345678` on `2025-02-01` already stored, the same
phone and date are rejected as `DuplicateEntry` with the store unchanged,
while the same phone on `2025-02-02` passes the checks. -/
theorem c4_validation_duplicate_witness :
    handleSubmit ⟨"12345", "2025-02-01", "大林店", "南", 2⟩ "u" 0 0 5 "d1"
        StoreEnv.success ⟨[], none⟩ = (Except.error RegError.invalidInput, ⟨[], none⟩) ∧
    handleSubmit ⟨"0912345678", "2025-02-01", "大林店", "南", 2⟩ "u" 0 0 5 "d1"
        StoreEnv.success
        ⟨[⟨"d0", "0912345678", "2025-02-01", "大林店", "南", 4, "u", true, some "123456",
            "none_1", "銘謝惠顧", "none", false, none, some 1⟩], none⟩ =
      (Except.error RegError.duplicateEntry,
        ⟨[⟨"d0", "0912345678", "2025-02-01", "大林店", "南", 4, "u", true, some "123456",
            "none_1", "銘謝惠顧", "none", false, none, some 1⟩], none⟩) ∧
    ∃ o : Order, handleSubmit ⟨"0912345678", "2025-02-02", "大林店", "南", 2⟩ "u" 0 0 5 "d1"
        StoreEnv.success
        ⟨[⟨"d0", "0912345678", "2025-02-01", "大林店", "南", 4, "u", true, some "123456",
            "none_1", "銘謝惠顧", "none", false, none, some 1⟩], none⟩ =
      (Except.ok o,
        ⟨[⟨"d0", "0912345678", "2025-02-01", "大林店", "南", 4, "u", true, some "123456",
            "none_1", "銘謝惠顧", "none", false, none, some 1⟩] ++ [o], none⟩) :=
  ⟨(c4_validation_duplicate ⟨"12345", "2025-02-01", "大林店", "南", 2⟩ "u" 0 0 5 "d1"
      StoreEnv.success ⟨[], none⟩).1 (by decide),
   (c4_validation_duplicate ⟨"0912345678", "2025-02-01", "大林店", "南", 2⟩ "u" 0 0 5 "d1"
      StoreEnv.success _).2.1 (by decide) (by decide),
   (c4_validation_duplicate ⟨"0912345678", "2025-02-02", "大林店", "南", 2⟩ "u" 0 0 5 "d1"
      StoreEnv.success _).2.2 (by decide) (by decide)⟩

/-! ## Serial generation (claim C5) -/

/-- The fuel-based digit extractor agrees with `Nat.digits` once the fuel
covers the input. -/
lemma natDigitsFuel_eq_digits : ∀ (fuel n : Nat), n ≤ fuel →
    natDigitsFuel fuel n = Nat.digits 10 n := by
  intro fuel
  induction fuel with
  | zero =>
      intro n hn
      have : n = 0 := Nat.le_zero.mp hn
      subst this
      simp [natDigitsFuel]
  | succ fuel ih =>
      intro n hn
      match n with
      | 0 => simp [natDigitsFuel]
      | m + 1 =>
          rw [natDigitsFuel]
          have hdiv : (m + 1) / 10 ≤ fuel := by
            have := Nat.div_lt_self (Nat.succ_pos m) (by norm_num : 1 < 10)
            omega
          rw [ih ((m + 1) / 10) hdiv,
            Nat.digits_def' (by norm_num : (1 : ℕ) < 10) (Nat.succ_pos m)]

/-- Digits below ten render as decimal digit characters. -/
lemma digitChar_isDigit {d : Nat} (hd : d < 10) : (Nat.digitChar d).isDigit = true := by
  interval_cases d <;> decide

/-- Any integer in `[100000, 999999]` renders as a six-decimal-digit string. -/
lemma decimalString_six {n : Nat} (h1 : 100000 ≤ n) (h2 : n ≤ 999999) :
    matchesSixDigits (decimalString n) = true := by
  have hn0 : n ≠ 0 := by omega
  have hdig : natDigitsFuel n n = Nat.digits 10 n := natDigitsFuel_eq_digits n n le_rfl
  have hlog : Nat.log 10 n = 5 :=
    Nat.log_eq_of_pow_le_of_lt_pow (by norm_num; omega) (by norm_num; omega)
  have hlen : (Nat.digits 10 n).length = 6 := by
    rw [Nat.digits_len 10 n (by norm_num) hn0, hlog]
  rw [decimalString, if_neg hn0, matchesSixDigits, Bool.and_eq_true]
  refine ⟨?_, ?_⟩
  · simp [hdig, hlen]
  · rw [List.all_eq_true]
    intro c hc
    simp only [List.mem_map, List.mem_reverse, hdig] at hc
    obtain ⟨d, hd, rfl⟩ := hc
    exact digitChar_isDigit (Nat.digits_lt_base (by norm_num) hd)

/-- The drawn integer `Math.floor(100000 + r * 900000)` lies in
`[100000, 999999]` for `r` in `[0,1)`. -/
lemma serial_floor_bounds {r : ℚ} (h0 : 0 ≤ r) (h1 : r < 1) :
    100000 ≤ Nat.floor ((100000 : ℚ) + r * 900000) ∧
      Nat.floor ((100000 : ℚ) + r * 900000) ≤ 999999 := by
  have hr0 : (0 : ℚ) ≤ r * 900000 := mul_nonneg h0 (by norm_num)
  have hr1 : r * 900000 < 900000 := by nlinarith
  constructor
  · apply Nat.le_floor
    push_cast
    linarith
  · have hlt : Nat.floor ((100000 : ℚ) + r * 900000) < 1000000 := by
      rw [Nat.floor_lt (by linarith)]
      push_cast
      linarith
    omega

/-- `generateSerial` on a draw in `[0,1)` is the decimal rendering of an
integer in `[100000, 999999]` and matches `^\d{6}$`. -/
lemma generateSerial_spec {r : ℚ} (h0 : 0 ≤ r) (h1 : r < 1) :
    ∃ m : Nat, 100000 ≤ m ∧ m ≤ 999999 ∧ generateSerial r = decimalString m ∧
      matchesSixDigits (generateSerial r) = true := by
  obtain ⟨hlo, hhi⟩ := serial_floor_bounds h0 h1
  exact ⟨Nat.floor ((100000 : ℚ) + r * 900000), hlo, hhi, rfl, decimalString_six hlo hhi⟩

/-- Claim C5: a created order is grand-eligible exactly when
`durationHours ≥ 4`; its serial is present exactly when eligible (absent for
e.g. three hours), and any present serial is the decimal string of an
integer drawn from `[100000, 999999]`, hence matches `^\d{6}$`. -/
theorem c5_grand_serial (form : RegForm) (uid : String) (r sr : ℚ) (ts : Nat)
    (newId : String) (env : StoreEnv) (s : Store) (o : Order) (s2 : Store)
    (hsr0 : 0 ≤ sr) (hsr1 : sr < 1)
    (hres : handleSubmit form uid r sr ts newId env s = (Except.ok o, s2)) :
    (o.isGrandEligible = decide (4 ≤ form.duration)) ∧
    (o.grandDrawSerial.isSome = decide (4 ≤ form.duration)) ∧
    (form.duration < 4 → o.grandDrawSerial = none) ∧
    (∀ str, o.grandDrawSerial = some str →
      (∃ m : Nat, 100000 ≤ m ∧ m ≤ 999999 ∧ str = decimalString m) ∧
      matchesSixDigits str = true) := by
  unfold handleSubmit at hres
  split_ifs at hres
  · exact absurd hres (by simp)
  · exact absurd hres (by simp)
  · simp only [Prod.mk.injEq, Except.ok.injEq] at hres
    obtain ⟨ho, -⟩ := hres
    subst ho
    refine ⟨rfl, ?_, ?_, ?_⟩
    · by_cases h4 : 4 ≤ form.duration
      · simp [decide_eq_true h4]
      · simp [decide_eq_false h4]
    · intro hlt
      have h4 : ¬ 4 ≤ form.duration := by omega
      simp [decide_eq_false h4]
    · intro str hstr
      by_cases h4 : 4 ≤ form.duration
      · simp only [decide_eq_true h4, eq_self_iff_true, if_true] at hstr
        obtain ⟨m, hm1, hm2, hm3, hm4⟩ := generateSerial_spec hsr0 hsr1
        rw [Option.some.injEq] at hstr
        subst hstr
        exact ⟨⟨m, hm1, hm2, hm3⟩, hm4⟩
      · simp [decide_eq_false h4] at hstr

/-- A concrete demonstration registration: phone `0912345678`, four hours,
both random draws 0 — which selects `none_1` and the serial `100000`. -/
def oDemo : Order :=
  ⟨"doc1", "0912345678", "2025-02-01", "大林店", "南", 4, "u", true, some "100000",
    "none_1", "銘謝惠顧", "none", false, none, some 5⟩

/-- The demonstration registration against an empty store succeeds and
creates exactly `oDemo`. -/
lemma handleSubmit_demo :
    handleSubmit ⟨"0912345678", "2025-02-01", "大林店", "南", 4⟩ "u" 0 0 5 "doc1"
        StoreEnv.success ⟨[], none⟩ =
      (Except.ok oDemo, ⟨[oDemo], none⟩) := by
  have hser : generateSerial 0 = "100000" := by
    have hf : Nat.floor ((100000 : ℚ) + 0 * 900000) = 100000 := by norm_num
    rw [generateSerial, hf]
    decide
  have hsel : determinePrize 0 (readStats StoreEnv.success ⟨[], none⟩) = pNone1 := by
    have h : selectPrize 0 = pNone1 := by rw [selectPrize_eq]; norm_num
    simp [readStats, determinePrize, checkLimit, h, pNone1]
  unfold handleSubmit
  rw [if_neg (by decide), if_neg (by decide)]
  simp only [hser, hsel]
  rfl

/-- Claim C5 witness: the demonstration registration (four hours, draw 0)
yields the six-digit serial `100000`. -/
theorem c5_grand_serial_witness :
    oDemo.grandDrawSerial.isSome = decide (4 ≤ 4) ∧ matchesSixDigits "100000" = true := by
  have h := c5_grand_serial ⟨"0912345678", "2025-02-01", "大林店", "南", 4⟩ "u" 0 0 5 "doc1"
    StoreEnv.success ⟨[], none⟩ oDemo ⟨[oDemo], none⟩ (by norm_num) (by norm_num)
    handleSubmit_demo
  exact ⟨h.2.1, (h.2.2.2 "100000" rfl).2⟩

/-! ## Created-order initial fields (claim C10) -/

/-- Claim C10 (amended): every order a successful registration persists has
its redemption flag (`prizeSent`) initialized `false`, carries the snapshot
of the decided prize (`id`, `name`, `kind`) and the serial, and has no
`note` field at all at creation (the admin view defaults the absent field to
the empty string when reading). -/
theorem c10_order_init (form : RegForm) (uid : String) (r sr : ℚ) (ts : Nat)
    (newId : String) (env : StoreEnv) (s : Store) (o : Order) (s2 : Store)
    (hres : handleSubmit form uid r sr ts newId env s = (Except.ok o, s2)) :
    o.prizeSent = false ∧ o.note = none ∧
    o.scratchPrizeId = (determinePrize r (readStats env s)).id ∧
    o.scratchPrizeName = (determinePrize r (readStats env s)).name ∧
    o.scratchPrizeType = (determinePrize r (readStats env s)).type ∧
    o.grandDrawSerial =
      (if decide (4 ≤ form.duration) = true then some (generateSerial sr) else none) := by
  unfold handleSubmit at hres
  split_ifs at hres
  · exact absurd hres (by simp)
  · exact absurd hres (by simp)
  · simp only [Prod.mk.injEq, Except.ok.injEq] at hres
    obtain ⟨ho, -⟩ := hres
    subst ho
    exact ⟨rfl, rfl, rfl, rfl, rfl, rfl⟩

/-- Claim C10 witness: the demonstration registration's order has
`prizeSent = false` and no `note` field. -/
theorem c10_order_init_witness : oDemo.prizeSent = false ∧ oDemo.note = none := by
  have h := c10_order_init ⟨"0912345678", "2025-02-01", "大林店", "南", 4⟩ "u" 0 0 5 "doc1"
    StoreEnv.success ⟨[], none⟩ oDemo ⟨[oDemo], none⟩ handleSubmit_demo
  exact ⟨h.1, h.2.1⟩

/-- Claim C10 counterexample: the demonstration registration persists an
order whose `note` field is absent (`none`) — the `addDoc` payload carries
no `note` key — not initialized to the empty string as claimed. -/
theorem c10_order_init_counterexample :
    ((handleSubmit ⟨"0912345678", "2025-02-01", "大林店", "南", 4⟩ "u" 0 0 5 "doc1"
        StoreEnv.success ⟨[], none⟩).1.toOption.map Order.note) = some none ∧
      some (none : Option String) ≠ some (some "") := by
  rw [handleSubmit_demo]
  exact ⟨rfl, by simp⟩

/-! ## Bulk wipe (claim C6) -/

/-- Deleting order documents never touches the `prize_counts` document. -/
lemma foldl_deleteOrder_stats : ∀ (ids : List String) (s : Store),
    (ids.foldl deleteOrder s).stats = s.stats := by
  intro ids
  induction ids with
  | nil => intro s; rfl
  | cons i ids ih => intro s; rw [List.foldl_cons, ih]; rfl

/-- Deleting a batch of document ids keeps exactly the orders whose id is
not in the batch. -/
lemma foldl_deleteOrder_orders : ∀ (ids : List String) (s : Store),
    (ids.foldl deleteOrder s).orders =
      s.orders.filter (fun o => !(ids.any (fun i => o.id == i))) := by
  intro ids
  induction ids with
  | nil => intro s; simp
  | cons i ids ih =>
      intro s
      rw [List.foldl_cons, ih, deleteOrder]
      simp only [List.filter_filter]
      apply List.filter_congr
      intro o _
      simp [List.any_cons, Bool.and_comm]

/-- Claim C6 (amended): `clearAllData` deletes every order document, but it
leaves the `prize_counts` aggregate exactly as it was — stored prize counts
are not reset. -/
theorem c6_clear_all (s : Store) :
    (clearAllData s).orders = [] ∧ (clearAllData s).stats = s.stats := by
  constructor
  · rw [clearAllData, foldl_deleteOrder_orders]
    rw [List.filter_eq_nil_iff]
    intro o ho
    simp only [Bool.not_eq_true', Bool.not_eq_false]
    rw [List.any_eq_true]
    exact ⟨o.id, List.mem_map_of_mem Order.id ho, by simp⟩
  · rw [clearAllData, foldl_deleteOrder_stats]

/-- Claim C6 counterexample: a store holding one order and a `prize_counts`
document with `ext_2h ↦ 3`.  `clearAllData` empties the orders but the
aggregate still reads count 3 for `ext_2h` — it is not reset to empty. -/
theorem c6_clear_counterexample :
    (clearAllData ⟨[⟨"d0", "0912345678", "2025-02-01", "大林店", "南", 4, "u", true,
        some "123456", "ext_2h", "2小時續時券", "win", false, none, some 1⟩],
        some [("ext_2h", 3)]⟩).orders = [] ∧
    (clearAllData ⟨[⟨"d0", "0912345678", "2025-02-01", "大林店", "南", 4, "u", true,
        some "123456", "ext_2h", "2小時續時券", "win", false, none, some 1⟩],
        some [("ext_2h", 3)]⟩).stats = some [("ext_2h", 3)] ∧
    lookupCount [("ext_2h", 3)] "ext_2h" = 3 ∧
    some [("ext_2h", 3)] ≠ (some ([] : List (String × Nat))) ∧
    some [("ext_2h", 3)] ≠ (none : Option (List (String × Nat))) := by
  refine ⟨by decide, by decide, by decide, by decide, by decide⟩

/-! ## Registration's frame on the aggregate (claim C7) -/

/-- One registration, whatever its outcome, leaves `prize_counts` unchanged. -/
lemma handleSubmit_stats (form : RegForm) (uid : String) (r sr : ℚ) (ts : Nat)
    (newId : String) (env : StoreEnv) (s : Store) :
    ((handleSubmit form uid r sr ts newId env s).2).stats = s.stats := by
  unfold handleSubmit
  split_ifs <;> rfl

/-- Claim C7: registration never writes to the `prize_counts` aggregate —
`determinePrize` only reads it and the increment is skipped — so any
sequence of registrations leaves every stored prize count exactly as it
was; the system's own awards can never exhaust a limited prize. -/
theorem c7_no_inventory_write (reqs : List RegRequest) (s : Store) :
    (registerAll reqs s).stats = s.stats ∧
      ∀ (form : RegForm) (uid : String) (r sr : ℚ) (ts : Nat) (newId : String)
        (env : StoreEnv),
        ((handleSubmit form uid r sr ts newId env s).2).stats = s.stats := by
  constructor
  · induction reqs generalizing s with
    | nil => rfl
    | cons q reqs ih =>
        rw [registerAll, List.foldl_cons]
        rw [show (List.foldl (fun st q => (handleSubmit q.form q.uid q.r q.sr q.ts q.newId
            q.env st).2) ((handleSubmit q.form q.uid q.r q.sr q.ts q.newId q.env s).2) reqs)
          = registerAll reqs ((handleSubmit q.form q.uid q.r q.sr q.ts q.newId q.env s).2)
          from rfl]
        rw [ih, handleSubmit_stats]
  · intro form uid r sr ts newId env
    exact handleSubmit_stats form uid r sr ts newId env s

/-! ## Admin report views (claim C8) -/

/-- Claim C8: the grand tab lists exactly the orders with
`isGrandEligible = true` (any ineligible order is excluded whatever its
prize kind), the instant tab lists exactly the orders whose prize kind is
`win` (any other order is excluded whatever its eligibility), and both
lists are sorted newest-first by creation timestamp. -/
theorem c8_admin_lists (orders : List Order) (o : Order) :
    (o ∈ fetchAdminData "grand" orders ↔ o ∈ orders ∧ o.isGrandEligible = true) ∧
    (o ∈ fetchAdminData "instant" orders ↔ o ∈ orders ∧ o.scratchPrizeType = "win") ∧
    List.Sorted newerFirst (fetchAdminData "grand" orders) ∧
    List.Sorted newerFirst (fetchAdminData "instant" orders) := by
  refine ⟨?_, ?_, ?_, ?_⟩
  · rw [fetchAdminData]
    simp [List.mem_insertionSort, List.mem_filter]
  · rw [fetchAdminData]
    simp [List.mem_insertionSort, List.mem_filter]
  · exact List.sorted_insertionSort newerFirst _
  · exact List.sorted_insertionSort newerFirst _

/-! ## Scratch-reveal state machine (claim C9) -/

/-- `checkReveal` does nothing to an already revealed state. -/
lemma checkReveal_of_revealed {s : ScratchState} (hs : s.revealed = true) :
    checkReveal s = s := by
  obtain ⟨g, b⟩ := s
  simp only at hs
  subst hs
  rw [checkReveal]
  split_ifs <;> rfl

/-- No event changes an already revealed state: `draw` returns before
scratching and `checkReveal` cannot set the flag again. -/
lemma scratchStep_of_revealed (op : ScratchOp) {s : ScratchState} (hs : s.revealed = true) :
    scratchStep op s = s := by
  cases op with
  | release => exact checkReveal_of_revealed hs
  | draw c => rw [scratchStep, if_pos hs]

/-- A whole run does nothing to an already revealed state. -/
lemma runScratch_of_revealed (ops : List ScratchOp) {s : ScratchState}
    (hs : s.revealed = true) : runScratch ops s = s := by
  induction ops with
  | nil => rfl
  | cons op ops ih =>
      rw [show runScratch (op :: ops) s = runScratch ops (scratchStep op s) from rfl,
        scratchStep_of_revealed op hs]
      exact ih

/-- Every step preserves the invariant `revealed ↔ cleared fraction above
75%`. -/
lemma scratchStep_inv {s : ScratchState}
    (h : s.revealed = true ↔ 75 < percentCleared s.grid) (op : ScratchOp) :
    ((scratchStep op s).revealed = true ↔ 75 < percentCleared (scratchStep op s).grid) := by
  by_cases hrev : s.revealed = true
  · rw [scratchStep_of_revealed op hrev]
    exact h
  · have hb : s.revealed = false := by simpa using hrev
    cases op with
    | release =>
        rw [show scratchStep ScratchOp.release s = checkReveal s from rfl, checkReveal]
        split_ifs with hp
        · exact ⟨fun _ => hp, fun _ => rfl⟩
        · exact h
    | draw c =>
        rw [scratchStep, if_neg (by simp [hb])]
        rw [checkReveal]
        split_ifs with hp
        · exact ⟨fun _ => hp, fun _ => rfl⟩
        · simpa [hb] using hp

/-- The freshly painted overlay has cleared fraction zero. -/
lemma percentCleared_initial (n : Nat) : percentCleared (initialScratch n).grid = 0 := by
  have hc : countTransparent (List.replicate n 255) = 0 := by
    induction n with
    | zero => rfl
    | succ n ih =>
        rw [List.replicate_succ, countTransparent, List.filter_cons]
        simp only [show ¬(255 < 128) from by omega, decide_eq_false, Bool.false_eq_true,
          if_false]
        exact ih
  rw [initialScratch]
  simp only [percentCleared, hc]
  norm_num

/-- Every state a run from the fresh overlay passes through satisfies the
invariant. -/
lemma scratchTrace_inv : ∀ (ops : List ScratchOp) (s : ScratchState),
    (s.revealed = true ↔ 75 < percentCleared s.grid) →
    ∀ t ∈ scratchTrace ops s, (t.revealed = true ↔ 75 < percentCleared t.grid) := by
  intro ops
  induction ops with
  | nil =>
      intro s hs t ht
      rw [show scratchTrace [] s = [s] from rfl] at ht
      simp only [List.mem_singleton] at ht
      subst ht
      exact hs
  | cons op ops ih =>
      intro s hs t ht
      rw [show scratchTrace (op :: ops) s = s :: scratchTrace ops (scratchStep op s)
        from rfl] at ht
      rcases List.mem_cons.mp ht with h | h
      · subst h; exact hs
      · exact ih (scratchStep op s) (scratchStep_inv hs op) t h

/-- `countRises` on two adjacent entries, unfolded. -/
lemma countRises_cons_cons (a b : Bool) (l : List Bool) :
    countRises (a :: b :: l) = (if a = false ∧ b = true then 1 else 0) + countRises (b :: l) :=
  rfl

/-- A run's Boolean reveal trace rises exactly once when it ends revealed
having started unrevealed, and never otherwise. -/
lemma countRises_trace : ∀ (ops : List ScratchOp) (s : ScratchState),
    countRises ((scratchTrace ops s).map ScratchState.revealed) =
      if (runScratch ops s).revealed = true ∧ s.revealed = false then 1 else 0 := by
  intro ops
  induction ops with
  | nil =>
      intro s
      rw [show scratchTrace [] s = [s] from rfl, show runScratch [] s = s from rfl]
      by_cases h : s.revealed = true <;> simp [countRises, h]
  | cons op ops ih =>
      intro s
      obtain ⟨rest, hrest⟩ : ∃ rest, scratchTrace ops (scratchStep op s) =
          (scratchStep op s) :: rest := by cases ops <;> exact ⟨_, rfl⟩
      have h2 := ih (scratchStep op s)
      rw [hrest, List.map_cons] at h2
      rw [show scratchTrace (op :: ops) s = s :: scratchTrace ops (scratchStep op s)
        from rfl, List.map_cons, hrest, List.map_cons, countRises_cons_cons, h2,
        show runScratch (op :: ops) s = runScratch ops (scratchStep op s) from rfl]
      by_cases hs : s.revealed = true
      · have hstep : scratchStep op s = s := scratchStep_of_revealed op hs
        rw [hstep, runScratch_of_revealed ops hs]
        simp [hs]
      · have hs' : s.revealed = false := by simpa using hs
        by_cases hstep : (scratchStep op s).revealed = true
        · rw [runScratch_of_revealed ops hstep]
          simp [hs', hstep]
        · have hstep' : (scratchStep op s).revealed = false := by simpa using hstep
          simp [hs', hstep']

/-- Claim C9: starting from the fresh overlay, a run of clear events
transitions from Active to Revealed exactly once when it ends revealed and
never otherwise; along the whole run a state is revealed precisely when its
cleared fraction exceeds 75% — so the single transition happens at the
first event whose resulting fraction exceeds 75% — and once revealed, any
further event leaves the state (overlay included) completely unchanged: no
more scratching and no further transition. -/
theorem c9_scratch_reveal (n : Nat) (ops : List ScratchOp) :
    (countRises ((scratchTrace ops (initialScratch n)).map ScratchState.revealed) =
      if (runScratch ops (initialScratch n)).revealed = true then 1 else 0) ∧
    (∀ t ∈ scratchTrace ops (initialScratch n),
      (t.revealed = true ↔ 75 < percentCleared t.grid)) ∧
    (∀ (op : ScratchOp) (g : List Nat),
      scratchStep op ⟨g, true⟩ = ⟨g, true⟩) := by
  have hinv0 : ((initialScratch n).revealed = true ↔
      75 < percentCleared (initialScratch n).grid) := by
    rw [percentCleared_initial]
    simp [initialScratch]
  refine ⟨?_, scratchTrace_inv ops (initialScratch n) hinv0, ?_⟩
  · rw [countRises_trace]
    simp [initialScratch]
  · intro op g
    exact scratchStep_of_revealed op rfl

end Mahjong
